import Mathlib

/-!
Verification of the multi_server tick engine (`src/main.rs`).

The server state and its operations are shallowly embedded: `f32` scalars
become exact rationals (every scenario value in play — 0, 1, 0.8 = 4/5, 10,
190, 290 — is handled exactly), the player vector becomes a `List Player`,
and in-place mutation through a `MutexGuard` becomes explicit state passing.
The flatbuffers codec is an external collaborator: its decode result is a
parameter of `handle_packet`, and the outbound snapshot is modelled by the
record sequence the code writes into the builder.
-/

namespace MultiServer

/-- Network addresses (`SocketAddr`) only need decidable equality here. -/
abbrev Addr := ℕ

/-- Color enum from the flatbuffers schema; only `Red` is used by the server. -/
inductive Color
  | Red
  | Blue
  | Green
deriving DecidableEq, Repr

/-- PlayerCommand enum from the flatbuffers schema. The catch-all arm of the
dispatch in `tick` is modelled by the `Nothing` variant. -/
inductive PlayerCommand
  | Move_left
  | Move_right
  | Jump
  | Nothing
deriving DecidableEq, Repr

/-- Vec2 from `src/main.rs`. -/
structure Vec2 where
  x : ℚ
  y : ℚ
deriving DecidableEq, Repr

/-- Vec2::zero. -/
def Vec2.zero : Vec2 := ⟨0, 0⟩

/-- Player struct from `src/main.rs`. -/
structure Player where
  ip : Addr
  pos : Vec2
  vel : Vec2
  acc : ℚ
  jump_force : ℚ
  color : Color
deriving DecidableEq, Repr

/-- Player::new. -/
def Player.new (ip : Addr) : Player :=
  { ip := ip
    pos := Vec2.zero
    vel := Vec2.zero
    acc := 1
    jump_force := 10
    color := Color.Red }

/-- MAX_PLAYERS constant. -/
def MAX_PLAYERS : ℕ := 10

/-- GRAVITY constant. -/
def GRAVITY : ℚ := 1

/-- FRICTION constant (0.8). -/
def FRICTION : ℚ := 4 / 5

/-- SCREEN_HEIGHT constant. -/
def SCREEN_HEIGHT : ℚ := 200

/-- SCREEN_WIDTH constant. -/
def SCREEN_WIDTH : ℚ := 300

/-- handle_move_right: `player.vel.x += player.acc`. -/
def handle_move_right (p : Player) : Player :=
  { p with vel := ⟨p.vel.x + p.acc, p.vel.y⟩ }

/-- handle_move_left: `player.vel.x -= player.acc`. -/
def handle_move_left (p : Player) : Player :=
  { p with vel := ⟨p.vel.x - p.acc, p.vel.y⟩ }

/-- handle_jump: `player.vel.y -= player.jump_force`. -/
def handle_jump (p : Player) : Player :=
  { p with vel := ⟨p.vel.x, p.vel.y - p.jump_force⟩ }

/-- The per-player body of `physics`, transcribed statement by statement:
integrate position, scale horizontal velocity by FRICTION, add GRAVITY to
vertical velocity, then the four clamp branches in source order. -/
def physicsStep (p : Player) : Player :=
  let p := { p with pos := ⟨p.pos.x + p.vel.x, p.pos.y + p.vel.y⟩ }
  let p := { p with vel := ⟨p.vel.x * FRICTION, p.vel.y + GRAVITY⟩ }
  let p := if SCREEN_HEIGHT - 10 < p.pos.y then
      { p with pos := ⟨p.pos.x, SCREEN_HEIGHT - 10⟩, vel := ⟨p.vel.x, 0⟩ } else p
  let p := if p.pos.y < 0 then
      { p with pos := ⟨p.pos.x, 0⟩, vel := ⟨p.vel.x, 0⟩ } else p
  let p := if SCREEN_WIDTH - 10 < p.pos.x then
      { p with pos := ⟨SCREEN_WIDTH - 10, p.pos.y⟩, vel := ⟨0, p.vel.y⟩ } else p
  let p := if p.pos.x < 0 then
      { p with pos := ⟨0, p.pos.y⟩, vel := ⟨0, p.vel.y⟩ } else p
  p

/-- physics: the per-player step applied to every player. -/
def physics (players : List Player) : List Player :=
  players.map physicsStep

/-- Phase 1 of the physics body: `pos += vel` on both axes. -/
def integrateStep (p : Player) : Player :=
  { p with pos := ⟨p.pos.x + p.vel.x, p.pos.y + p.vel.y⟩ }

/-- Phase 2 of the physics body: `vel.x *= FRICTION`. -/
def frictionStep (p : Player) : Player :=
  { p with vel := ⟨p.vel.x * FRICTION, p.vel.y⟩ }

/-- Phase 3 of the physics body: `vel.y += GRAVITY`. -/
def gravityStep (p : Player) : Player :=
  { p with vel := ⟨p.vel.x, p.vel.y + GRAVITY⟩ }

/-- Phase 4 of the physics body: the four clamp branches in source order. -/
def clampStep (p : Player) : Player :=
  let p := if SCREEN_HEIGHT - 10 < p.pos.y then
      { p with pos := ⟨p.pos.x, SCREEN_HEIGHT - 10⟩, vel := ⟨p.vel.x, 0⟩ } else p
  let p := if p.pos.y < 0 then
      { p with pos := ⟨p.pos.x, 0⟩, vel := ⟨p.vel.x, 0⟩ } else p
  let p := if SCREEN_WIDTH - 10 < p.pos.x then
      { p with pos := ⟨SCREEN_WIDTH - 10, p.pos.y⟩, vel := ⟨0, p.vel.y⟩ } else p
  let p := if p.pos.x < 0 then
      { p with pos := ⟨0, p.pos.y⟩, vel := ⟨0, p.vel.y⟩ } else p
  p

/-- get_player_by_ip: first player whose ip matches. -/
def get_player_by_ip (ip : Addr) (players : List Player) : Option Player :=
  players.find? (fun p => p.ip == ip)

/-- Mutation of the player found by `get_player_by_ip` through its `&mut`
borrow: updates the first list entry with the given address. -/
def updateFirst (ip : Addr) (f : Player → Player) : List Player → List Player
  | [] => []
  | p :: ps => if p.ip == ip then f p :: ps else p :: updateFirst ip f ps

/-- The match arms of the command dispatch in `tick`. -/
def applyCommand (cmd : PlayerCommand) (p : Player) : Player :=
  match cmd with
  | .Move_right => handle_move_right p
  | .Move_left => handle_move_left p
  | .Jump => handle_jump p
  | .Nothing => p

/-- One iteration of `tick`'s command loop: look the sender up; if present,
dispatch the command to it; otherwise push a freshly created default player. -/
def applyCommandEvent (players : List Player) (ev : Addr × PlayerCommand) : List Player :=
  match get_player_by_ip ev.1 players with
  | some _ => updateFirst ev.1 (applyCommand ev.2) players
  | none => players ++ [Player.new ev.1]

/-- The whole command loop of `tick`, in arrival order. -/
def applyCommands (players : List Player) (cmds : List (Addr × PlayerCommand)) : List Player :=
  cmds.foldl applyCommandEvent players

/-- One record of the outbound `PlayersList` snapshot: the `(x, y, color)`
triple `tick` writes into the builder for each player. -/
abbrev SnapRecord := ℚ × ℚ × Color

/-- The snapshot body built once per tick from the full player list. -/
def encodeSnapshot (players : List Player) : List SnapRecord :=
  players.map (fun p => (p.pos.x, p.pos.y, p.color))

/-- Result of one `tick` call: the world state behind the guard, the
`send_to` calls issued (destination, payload), and the command buffer after
`commands.clear()`. -/
structure TickOut where
  players : List Player
  sends : List (Addr × List SnapRecord)
  commands : List (Addr × PlayerCommand)
deriving DecidableEq, Repr

/-- tick: apply the queued commands, run physics, encode the snapshot once,
send it to every player's address, clear the queue. -/
def tick (players : List Player) (commands : List (Addr × PlayerCommand)) : TickOut :=
  let ps1 := applyCommands players commands
  let ps2 := physics ps1
  let bytes := encodeSnapshot ps2
  { players := ps2
    sends := ps2.map (fun p => (p.ip, bytes))
    commands := [] }

/-- Decode failure of the external flatbuffers verifier (`root::<PlayerCommands>`). -/
inductive DecodeError
  | invalid
deriving DecidableEq, Repr

/-- handle_packet. Decoding is external, so its outcome is a parameter:
`Except.error` for a buffer that fails verification, `Except.ok none` for a
valid message whose optional `commands` field is absent, `Except.ok (some cs)`
for a batch of commands. The source calls `.expect` on the decode result,
which panics on error; the panic is modelled by `none`, and `some queue`
returns the command queue after the call. -/
def handle_packet (decoded : Except DecodeError (Option (List PlayerCommand)))
    (src : Addr) (commands : List (Addr × PlayerCommand)) :
    Option (List (Addr × PlayerCommand)) :=
  match decoded with
  | .error _ => none
  | .ok none => some commands
  | .ok (some cmds) => some (commands ++ cmds.map (fun c => (src, c)))

/-- Serialized events on the shared command queue. The `Mutex` makes each
enqueue (ingestion loop holding the lock across `handle_packet`) and each
drain (`tick` holding the lock across iterate-then-clear) atomic, so a
concurrent execution is a linear sequence of these events. -/
inductive QueueEvent
  | enqueue (e : Addr × PlayerCommand)
  | drain
deriving DecidableEq, Repr

/-- Queue history: the pending buffer and the batches drained so far. -/
structure QueueState where
  queue : List (Addr × PlayerCommand)
  drained : List (List (Addr × PlayerCommand))
deriving DecidableEq, Repr

/-- One atomic queue operation: append under the lock, or take the whole
buffer for a tick and clear it. -/
def queueStep (s : QueueState) (ev : QueueEvent) : QueueState :=
  match ev with
  | .enqueue e => { s with queue := s.queue ++ [e] }
  | .drain => { queue := [], drained := s.drained ++ [s.queue] }

/-- Run a serialized history of queue events from a given state. -/
def runQueue (s : QueueState) (evs : List QueueEvent) : QueueState :=
  evs.foldl queueStep s

/-- Commands enqueued over a history, in order. -/
def enqueuedOf (evs : List QueueEvent) : List (Addr × PlayerCommand) :=
  evs.filterMap (fun ev => match ev with | .enqueue e => some e | .drain => none)

/-- Modelled from the spec: the outbound codec (flatbuffers `PlayersList`)
is outside `src/`; the spec's outbound schema gives each player record an
x float (4 bytes), a y float (4 bytes) and a color enum (at least 1 byte),
so any serialization of the list occupies at least 9 bytes per player. This
is a lower bound on the snapshot's wire size. -/
def snapshotMinBytes (players : List Player) : ℕ :=
  9 * players.length

/-- Number of players in the list keyed to a given address. -/
def countAddr (ip : Addr) (players : List Player) : ℕ :=
  (players.filter (fun p => p.ip == ip)).length

end MultiServer

namespace MultiServer

lemma clampStep_pos_x (p : Player) :
    (clampStep p).pos.x =
      if SCREEN_WIDTH - 10 < p.pos.x then SCREEN_WIDTH - 10
      else if p.pos.x < 0 then 0 else p.pos.x := by
  simp only [clampStep, SCREEN_WIDTH, SCREEN_HEIGHT]
  split_ifs <;> simp_all <;> linarith

lemma clampStep_pos_y (p : Player) :
    (clampStep p).pos.y =
      if SCREEN_HEIGHT - 10 < p.pos.y then SCREEN_HEIGHT - 10
      else if p.pos.y < 0 then 0 else p.pos.y := by
  simp only [clampStep, SCREEN_WIDTH, SCREEN_HEIGHT]
  split_ifs <;> simp_all <;> linarith

lemma clampStep_vel_x (p : Player) :
    (clampStep p).vel.x = if SCREEN_WIDTH - 10 < p.pos.x ∨ p.pos.x < 0 then 0 else p.vel.x := by
  simp only [clampStep, SCREEN_WIDTH, SCREEN_HEIGHT]
  split_ifs <;> simp_all <;>
    first
    | linarith
    | (rcases ‹_ ∨ _› with h | h <;> linarith)

lemma clampStep_vel_y (p : Player) :
    (clampStep p).vel.y = if SCREEN_HEIGHT - 10 < p.pos.y ∨ p.pos.y < 0 then 0 else p.vel.y := by
  simp only [clampStep, SCREEN_WIDTH, SCREEN_HEIGHT]
  split_ifs <;> simp_all <;>
    first
    | linarith
    | (rcases ‹_ ∨ _› with h | h <;> linarith)

end MultiServer

namespace MultiServer

lemma physicsStep_eq (p : Player) :
    physicsStep p = clampStep (gravityStep (frictionStep (integrateStep p))) := rfl

lemma clampStep_ip (p : Player) : (clampStep p).ip = p.ip := by
  simp only [clampStep]
  split_ifs <;> rfl

lemma physicsStep_ip (p : Player) : (physicsStep p).ip = p.ip := by
  rw [physicsStep_eq, clampStep_ip]
  rfl

lemma physicsStep_pos_x (p : Player) :
    (physicsStep p).pos.x =
      if SCREEN_WIDTH - 10 < p.pos.x + p.vel.x then SCREEN_WIDTH - 10
      else if p.pos.x + p.vel.x < 0 then 0 else p.pos.x + p.vel.x := by
  rw [physicsStep_eq]
  exact clampStep_pos_x (gravityStep (frictionStep (integrateStep p)))

lemma physicsStep_pos_y (p : Player) :
    (physicsStep p).pos.y =
      if SCREEN_HEIGHT - 10 < p.pos.y + p.vel.y then SCREEN_HEIGHT - 10
      else if p.pos.y + p.vel.y < 0 then 0 else p.pos.y + p.vel.y := by
  rw [physicsStep_eq]
  exact clampStep_pos_y (gravityStep (frictionStep (integrateStep p)))

lemma physicsStep_vel_x (p : Player) :
    (physicsStep p).vel.x =
      if SCREEN_WIDTH - 10 < p.pos.x + p.vel.x ∨ p.pos.x + p.vel.x < 0 then 0
      else p.vel.x * FRICTION := by
  rw [physicsStep_eq]
  exact clampStep_vel_x (gravityStep (frictionStep (integrateStep p)))

lemma physicsStep_vel_y (p : Player) :
    (physicsStep p).vel.y =
      if SCREEN_HEIGHT - 10 < p.pos.y + p.vel.y ∨ p.pos.y + p.vel.y < 0 then 0
      else p.vel.y + GRAVITY := by
  rw [physicsStep_eq]
  exact clampStep_vel_y (gravityStep (frictionStep (integrateStep p)))

/-- C1: one physics step performs exactly, and in this order: position is
incremented by velocity on both axes; horizontal velocity is scaled by the
friction damping factor, a constant below one; the gravity constant is added
to vertical velocity; then position is clamped on both axes, each
out-of-bound component being set to the bound itself (no bounce, no wrap)
with that axis's velocity component set to zero exactly when its bound is
hit. -/
theorem physics_step_order_C1 :
    (∀ p : Player, physicsStep p = clampStep (gravityStep (frictionStep (integrateStep p)))) ∧
    FRICTION < 1 ∧
    (∀ p : Player,
      (integrateStep p).pos = ⟨p.pos.x + p.vel.x, p.pos.y + p.vel.y⟩ ∧
      (integrateStep p).vel = p.vel ∧
      (frictionStep p).vel = ⟨p.vel.x * FRICTION, p.vel.y⟩ ∧
      (frictionStep p).pos = p.pos ∧
      (gravityStep p).vel = ⟨p.vel.x, p.vel.y + GRAVITY⟩ ∧
      (gravityStep p).pos = p.pos) ∧
    (∀ p : Player,
      (clampStep p).pos.x =
        (if SCREEN_WIDTH - 10 < p.pos.x then SCREEN_WIDTH - 10
         else if p.pos.x < 0 then 0 else p.pos.x) ∧
      (clampStep p).pos.y =
        (if SCREEN_HEIGHT - 10 < p.pos.y then SCREEN_HEIGHT - 10
         else if p.pos.y < 0 then 0 else p.pos.y) ∧
      (clampStep p).vel.x = (if SCREEN_WIDTH - 10 < p.pos.x ∨ p.pos.x < 0 then 0 else p.vel.x) ∧
      (clampStep p).vel.y = (if SCREEN_HEIGHT - 10 < p.pos.y ∨ p.pos.y < 0 then 0 else p.vel.y)) :=
  ⟨fun _ => rfl, by norm_num [FRICTION],
   fun _ => ⟨rfl, rfl, rfl, rfl, rfl, rfl⟩,
   fun p => ⟨clampStep_pos_x p, clampStep_pos_y p, clampStep_vel_x p, clampStep_vel_y p⟩⟩

/-- C2 (code bug): `handle_packet` does not drop a malformed datagram; the
`.expect` call on the decode result panics, which terminates the receive
loop. The model returns `none` (panic) on every decode failure, never the
untouched queue; a decodable message with an absent command list, by
contrast, leaves the queue unchanged. -/
theorem decode_failure_panics_C2 :
    handle_packet (Except.error DecodeError.invalid) 0 [] = none ∧
    handle_packet (Except.error DecodeError.invalid) 3 [(1, PlayerCommand.Jump)] = none ∧
    handle_packet (Except.ok none) 3 [(1, PlayerCommand.Jump)] =
      some [(1, PlayerCommand.Jump)] :=
  ⟨rfl, rfl, rfl⟩

/-- C7: every tick sends the one snapshot encoded from the final player list
to exactly the known players, one send per player, all sends carrying the
same bytes. -/
theorem broadcast_complete_C7 (players : List Player) (cmds : List (Addr × PlayerCommand)) :
    (tick players cmds).sends =
      (tick players cmds).players.map
        (fun p => (p.ip, encodeSnapshot (tick players cmds).players)) ∧
    (tick players cmds).sends.length = (tick players cmds).players.length := by
  refine ⟨rfl, ?_⟩
  simp [tick]

lemma runQueue_inv (evs : List QueueEvent) (s : QueueState) :
    ((runQueue s evs).drained).flatten ++ (runQueue s evs).queue =
      s.drained.flatten ++ s.queue ++ enqueuedOf evs := by
  induction evs generalizing s with
  | nil => simp [runQueue, enqueuedOf]
  | cons ev rest ih =>
    cases ev with
    | enqueue e =>
      have h := ih (queueStep s (QueueEvent.enqueue e))
      simp only [runQueue, List.foldl_cons] at h ⊢
      rw [h]
      simp [queueStep, enqueuedOf, List.append_assoc]
    | drain =>
      have h := ih (queueStep s QueueEvent.drain)
      simp only [runQueue, List.foldl_cons] at h ⊢
      rw [h]
      simp [queueStep, enqueuedOf, List.append_assoc]

/-- C9: over any serialized history of atomic queue operations — the Mutex
serializes each enqueue and each tick's drain — the drained batches followed
by the still-pending buffer are exactly the enqueued commands, in order: no
command is lost, none is duplicated, and a command enqueued after a drain
sits intact in the buffer for the next tick. -/
theorem queue_atomic_C9 (evs : List QueueEvent) :
    ((runQueue ⟨[], []⟩ evs).drained).flatten ++ (runQueue ⟨[], []⟩ evs).queue =
      enqueuedOf evs := by
  simpa using runQueue_inv evs ⟨[], []⟩

end MultiServer

namespace MultiServer

/-- A player resting on the floor of the world (the upper y bound the clamp
uses, SCREEN_HEIGHT - 10) with zero velocity on both axes. -/
def restingPlayer : Player :=
  { ip := 7, pos := ⟨50, 190⟩, vel := ⟨0, 0⟩, acc := 1, jump_force := 10, color := Color.Red }

/-- A player at the lower x bound with zero horizontal velocity. -/
def restingPlayerX : Player :=
  { ip := 8, pos := ⟨0, 100⟩, vel := ⟨0, 2⟩, acc := 1, jump_force := 10, color := Color.Red }

/-- C3 counterexample: a player exactly at the vertical bound with zero
vertical velocity does not keep that velocity component unchanged — the
step re-applies gravity, so vel.y becomes 1 while the position stays put. -/
theorem clamp_rest_counterexample_C3 :
    (restingPlayer.pos.y = SCREEN_HEIGHT - 10 ∧ restingPlayer.vel.y = 0) ∧
    ¬ ((physicsStep restingPlayer).pos.y = restingPlayer.pos.y ∧
       (physicsStep restingPlayer).vel.y = restingPlayer.vel.y) := by
  refine ⟨⟨by norm_num [restingPlayer, SCREEN_HEIGHT], rfl⟩, ?_⟩
  intro h
  have h2 := h.2
  rw [physicsStep_vel_y] at h2
  norm_num [restingPlayer, SCREEN_HEIGHT, GRAVITY] at h2

/-- C3 amended: at a horizontal bound with zero horizontal velocity, a
further physics step leaves both pos.x and vel.x unchanged; at a vertical
bound with zero vertical velocity the step leaves pos.y unchanged but sets
vel.y to the gravity constant (the vertical velocity does not stay zero,
because gravity is re-added every step). -/
theorem clamp_rest_amended_C3 (p : Player) :
    ((p.pos.x = 0 ∨ p.pos.x = SCREEN_WIDTH - 10) → p.vel.x = 0 →
      (physicsStep p).pos.x = p.pos.x ∧ (physicsStep p).vel.x = 0) ∧
    ((p.pos.y = 0 ∨ p.pos.y = SCREEN_HEIGHT - 10) → p.vel.y = 0 →
      (physicsStep p).pos.y = p.pos.y ∧ (physicsStep p).vel.y = GRAVITY) := by
  constructor
  · intro hx hv
    rw [physicsStep_pos_x, physicsStep_vel_x, hv]
    rcases hx with hx | hx <;> rw [hx] <;> norm_num [SCREEN_WIDTH]
  · intro hy hv
    rw [physicsStep_pos_y, physicsStep_vel_y, hv]
    rcases hy with hy | hy <;> rw [hy] <;> norm_num [SCREEN_HEIGHT]

/-- Witness for the amended C3 at concrete players on both axes. -/
theorem clamp_rest_amended_C3_witness :
    (restingPlayerX.pos.x = 0 ∨ restingPlayerX.pos.x = SCREEN_WIDTH - 10) ∧
    restingPlayerX.vel.x = 0 ∧
    (physicsStep restingPlayerX).pos.x = restingPlayerX.pos.x ∧
    (physicsStep restingPlayerX).vel.x = 0 ∧
    (restingPlayer.pos.y = 0 ∨ restingPlayer.pos.y = SCREEN_HEIGHT - 10) ∧
    restingPlayer.vel.y = 0 ∧
    (physicsStep restingPlayer).pos.y = restingPlayer.pos.y ∧
    (physicsStep restingPlayer).vel.y = GRAVITY := by
  have hx : restingPlayerX.pos.x = 0 := rfl
  have hvx : restingPlayerX.vel.x = 0 := rfl
  have hy : restingPlayer.pos.y = SCREEN_HEIGHT - 10 := by
    norm_num [restingPlayer, SCREEN_HEIGHT]
  have hvy : restingPlayer.vel.y = 0 := rfl
  have h1 := (clamp_rest_amended_C3 restingPlayerX).1 (Or.inl hx) hvx
  have h2 := (clamp_rest_amended_C3 restingPlayer).2 (Or.inr hy) hvy
  exact ⟨Or.inl hx, hvx, h1.1, h1.2, Or.inr hy, hvy, h2.1, h2.2⟩

/-- C5 counterexample: the pre-clamp position increment of the jump scenario
is the pre-gravity velocity -10.0, not the post-gravity -9.0 the claim
states — the code updates position before adding gravity. -/
theorem jump_scenario_counterexample_C5 :
    (integrateStep (handle_jump (Player.new 0))).pos.y = -10 ∧
    (integrateStep (handle_jump (Player.new 0))).pos.y ≠ 0 + (-9 : ℚ) := by
  norm_num [integrateStep, handle_jump, Player.new, Vec2.zero]

/-- C5 amended: from rest at the origin, one jump sets vel.y to -10; the
step integrates position with that pre-gravity velocity, pos.y = 0 + (-10);
gravity then makes vel.y = -10 + 1 = -9; the clamp finds pos.y below the
lower bound and resets it to 0 with vel.y zeroed, so the final state is
pos.y = 0 and vel.y = 0. -/
theorem jump_scenario_amended_C5 :
    (handle_jump (Player.new 0)).vel.y = -10 ∧
    (integrateStep (handle_jump (Player.new 0))).pos.y = 0 + (-10) ∧
    (gravityStep (frictionStep (integrateStep (handle_jump (Player.new 0))))).vel.y = -10 + 1 ∧
    (physicsStep (handle_jump (Player.new 0))).pos.y = 0 ∧
    (physicsStep (handle_jump (Player.new 0))).vel.y = 0 ∧
    GRAVITY = 1 ∧ FRICTION = 4 / 5 ∧ (Player.new 0).jump_force = 10 := by
  refine ⟨?_, ?_, ?_, ?_, ?_, rfl, rfl, rfl⟩
  · norm_num [handle_jump, Player.new, Vec2.zero]
  · norm_num [integrateStep, handle_jump, Player.new, Vec2.zero]
  · norm_num [gravityStep, frictionStep, integrateStep, handle_jump, Player.new, Vec2.zero,
      GRAVITY]
  · rw [physicsStep_pos_y]
    norm_num [handle_jump, Player.new, Vec2.zero, SCREEN_HEIGHT]
  · rw [physicsStep_vel_y]
    norm_num [handle_jump, Player.new, Vec2.zero, SCREEN_HEIGHT]

/-- A player whose integrated position leaves the world on both axes. -/
def outOfBoundsPlayer : Player :=
  { ip := 2, pos := ⟨295, -3⟩, vel := ⟨0, 0⟩, acc := 1, jump_force := 10, color := Color.Red }

/-- C6: after any physics step the position lies in [0, SCREEN_WIDTH) ×
[0, SCREEN_HEIGHT); an out-of-range component is set to the nearer bound
(clamped, not wrapped), and the velocity component of an axis whose bound
was hit is zeroed. -/
theorem physics_bounds_C6 (p : Player) :
    (0 ≤ (physicsStep p).pos.x ∧ (physicsStep p).pos.x < SCREEN_WIDTH) ∧
    (0 ≤ (physicsStep p).pos.y ∧ (physicsStep p).pos.y < SCREEN_HEIGHT) ∧
    ((physicsStep p).pos.x =
      if SCREEN_WIDTH - 10 < p.pos.x + p.vel.x then SCREEN_WIDTH - 10
      else if p.pos.x + p.vel.x < 0 then 0 else p.pos.x + p.vel.x) ∧
    ((physicsStep p).pos.y =
      if SCREEN_HEIGHT - 10 < p.pos.y + p.vel.y then SCREEN_HEIGHT - 10
      else if p.pos.y + p.vel.y < 0 then 0 else p.pos.y + p.vel.y) ∧
    ((SCREEN_WIDTH - 10 < p.pos.x + p.vel.x ∨ p.pos.x + p.vel.x < 0) →
      (physicsStep p).vel.x = 0) ∧
    ((SCREEN_HEIGHT - 10 < p.pos.y + p.vel.y ∨ p.pos.y + p.vel.y < 0) →
      (physicsStep p).vel.y = 0) := by
  refine ⟨?_, ?_, physicsStep_pos_x p, physicsStep_pos_y p, ?_, ?_⟩
  · rw [physicsStep_pos_x]
    constructor <;> split_ifs <;>
      first
      | linarith
      | norm_num [SCREEN_WIDTH]
  · rw [physicsStep_pos_y]
    constructor <;> split_ifs <;>
      first
      | linarith
      | norm_num [SCREEN_HEIGHT]
  · intro h
    rw [physicsStep_vel_x, if_pos h]
  · intro h
    rw [physicsStep_vel_y, if_pos h]

/-- Witness for C6 at a player clamped on both axes. -/
theorem physics_bounds_C6_witness :
    (SCREEN_WIDTH - 10 < outOfBoundsPlayer.pos.x + outOfBoundsPlayer.vel.x ∨
      outOfBoundsPlayer.pos.x + outOfBoundsPlayer.vel.x < 0) ∧
    (SCREEN_HEIGHT - 10 < outOfBoundsPlayer.pos.y + outOfBoundsPlayer.vel.y ∨
      outOfBoundsPlayer.pos.y + outOfBoundsPlayer.vel.y < 0) ∧
    (physicsStep outOfBoundsPlayer).vel.x = 0 ∧
    (physicsStep outOfBoundsPlayer).vel.y = 0 ∧
    0 ≤ (physicsStep outOfBoundsPlayer).pos.x ∧
    (physicsStep outOfBoundsPlayer).pos.x < SCREEN_WIDTH := by
  have hx : SCREEN_WIDTH - 10 < outOfBoundsPlayer.pos.x + outOfBoundsPlayer.vel.x := by
    norm_num [outOfBoundsPlayer, SCREEN_WIDTH]
  have hy : outOfBoundsPlayer.pos.y + outOfBoundsPlayer.vel.y < 0 := by
    norm_num [outOfBoundsPlayer]
  exact ⟨Or.inl hx, Or.inr hy,
    (physics_bounds_C6 outOfBoundsPlayer).2.2.2.2.1 (Or.inl hx),
    (physics_bounds_C6 outOfBoundsPlayer).2.2.2.2.2 (Or.inr hy),
    (physics_bounds_C6 outOfBoundsPlayer).1.1,
    (physics_bounds_C6 outOfBoundsPlayer).1.2⟩

end MultiServer

namespace MultiServer

lemma applyCommand_ip (c : PlayerCommand) (p : Player) : (applyCommand c p).ip = p.ip := by
  cases c <;> rfl

lemma get_player_by_ip_none_iff (addr : Addr) (players : List Player) :
    get_player_by_ip addr players = none ↔ ∀ q ∈ players, q.ip ≠ addr := by
  simp [get_player_by_ip, List.find?_eq_none]

lemma countAddr_append (addr : Addr) (l1 l2 : List Player) :
    countAddr addr (l1 ++ l2) = countAddr addr l1 + countAddr addr l2 := by
  simp [countAddr, List.filter_append]

lemma countAddr_physics (addr : Addr) (players : List Player) :
    countAddr addr (physics players) = countAddr addr players := by
  unfold countAddr physics
  rw [List.filter_map]
  simp [Function.comp_def, physicsStep_ip]

lemma countAddr_eq_zero (addr : Addr) (players : List Player)
    (h : ∀ q ∈ players, q.ip ≠ addr) : countAddr addr players = 0 := by
  unfold countAddr
  rw [List.length_eq_zero, List.filter_eq_nil_iff]
  intro a ha
  simpa using h a ha

lemma applyCommandEvent_new (players : List Player) (addr : Addr) (cmd : PlayerCommand)
    (h : get_player_by_ip addr players = none) :
    applyCommandEvent players (addr, cmd) = players ++ [Player.new addr] := by
  simp [applyCommandEvent, h]

lemma physicsStep_new (addr : Addr) :
    physicsStep (Player.new addr) = { Player.new addr with vel := ⟨0, GRAVITY⟩ } := by
  norm_num [physicsStep, Player.new, Vec2.zero, GRAVITY, FRICTION, SCREEN_WIDTH, SCREEN_HEIGHT]

end MultiServer

namespace MultiServer

/-- C4 counterexample: a single jump command from the unseen address 0 on an
empty server creates one player, but after the tick completes that player's
velocity is not zero — the tick's own physics step has already added the
gravity constant to vel.y. -/
theorem join_default_counterexample_C4 :
    (tick [] [((0 : Addr), PlayerCommand.Jump)]).players.length = 1 ∧
    ¬ (∀ p ∈ (tick [] [((0 : Addr), PlayerCommand.Jump)]).players, p.vel = Vec2.zero) := by
  have h : get_player_by_ip 0 ([] : List Player) = none := rfl
  have happ : applyCommands [] [((0 : Addr), PlayerCommand.Jump)] = [Player.new 0] := by
    simp [applyCommands, applyCommandEvent_new [] 0 PlayerCommand.Jump h]
  have hplayers : (tick [] [((0 : Addr), PlayerCommand.Jump)]).players =
      [physicsStep (Player.new 0)] := by
    simp [tick, happ, physics]
  constructor
  · rw [hplayers]
    rfl
  · intro hall
    have := hall (physicsStep (Player.new 0)) (by rw [hplayers]; exact List.mem_singleton.2 rfl)
    rw [physicsStep_new] at this
    have hy := congrArg Vec2.y this
    norm_num [Vec2.zero, GRAVITY] at hy

/-- C4 amended: a command from a previously unseen address yields, after the
tick, exactly one new player keyed to that address, appended to the list;
the player is created at default state (zero position and velocity) and the
triggering command is not applied as motion, but the tick's physics step
then runs on it, so after the tick its position is still zero while its
velocity is (0, GRAVITY), not zero. -/
theorem join_default_amended_C4 (players : List Player) (addr : Addr) (cmd : PlayerCommand)
    (h : get_player_by_ip addr players = none) :
    (tick players [(addr, cmd)]).players = physics players ++ [physicsStep (Player.new addr)] ∧
    (tick players [(addr, cmd)]).players.length = players.length + 1 ∧
    (Player.new addr).pos = Vec2.zero ∧
    (Player.new addr).vel = Vec2.zero ∧
    (physicsStep (Player.new addr)).pos = Vec2.zero ∧
    (physicsStep (Player.new addr)).vel = ⟨0, GRAVITY⟩ ∧
    countAddr addr (tick players [(addr, cmd)]).players = 1 := by
  have happ : applyCommands players [(addr, cmd)] = players ++ [Player.new addr] := by
    simp [applyCommands, applyCommandEvent_new players addr cmd h]
  have hplayers : (tick players [(addr, cmd)]).players =
      physics players ++ [physicsStep (Player.new addr)] := by
    simp [tick, happ, physics]
  refine ⟨hplayers, ?_, rfl, rfl, ?_, ?_, ?_⟩
  · rw [hplayers]
    simp [physics]
  · rw [physicsStep_new]
    rfl
  · rw [physicsStep_new]
  · rw [hplayers, countAddr_append, countAddr_physics]
    have h0 : countAddr addr players = 0 :=
      countAddr_eq_zero addr players ((get_player_by_ip_none_iff addr players).1 h)
    have h1 : countAddr addr [physicsStep (Player.new addr)] = 1 := by
      simp [countAddr, List.filter, physicsStep_ip, Player.new]
    rw [h0, h1]

/-- Witness for the amended C4: the join on an empty server. -/
theorem join_default_amended_C4_witness :
    get_player_by_ip 5 ([] : List Player) = none ∧
    (tick [] [((5 : Addr), PlayerCommand.Move_left)]).players = [physicsStep (Player.new 5)] ∧
    (physicsStep (Player.new 5)).vel = ⟨0, GRAVITY⟩ ∧
    countAddr 5 (tick [] [((5 : Addr), PlayerCommand.Move_left)]).players = 1 := by
  have h : get_player_by_ip 5 ([] : List Player) = none := rfl
  have main := join_default_amended_C4 [] 5 PlayerCommand.Move_left h
  refine ⟨h, ?_, main.2.2.2.2.2.1, main.2.2.2.2.2.2⟩
  have h1 := main.1
  simpa [physics] using h1

end MultiServer

namespace MultiServer

lemma get_player_by_ip_append_last (addr : Addr) (players : List Player) (p : Player)
    (h : ∀ q ∈ players, q.ip ≠ addr) (hp : p.ip = addr) :
    get_player_by_ip addr (players ++ [p]) = some p := by
  induction players with
  | nil => simp [get_player_by_ip, List.find?, hp]
  | cons a rest ih =>
    have ha : a.ip ≠ addr := h a (by simp)
    have hrest : ∀ q ∈ rest, q.ip ≠ addr := fun q hq => h q (by simp [hq])
    simpa [get_player_by_ip, List.find?_cons, ha] using ih hrest

lemma updateFirst_append_last (addr : Addr) (f : Player → Player) (players : List Player)
    (p : Player) (h : ∀ q ∈ players, q.ip ≠ addr) (hp : p.ip = addr) :
    updateFirst addr f (players ++ [p]) = players ++ [f p] := by
  induction players with
  | nil => simp [updateFirst, hp]
  | cons a rest ih =>
    have ha : a.ip ≠ addr := h a (by simp)
    have hrest : ∀ q ∈ rest, q.ip ≠ addr := fun q hq => h q (by simp [hq])
    simpa [updateFirst, ha] using ih hrest

lemma foldl_applyCommand_ip (cs : List PlayerCommand) (p : Player) :
    (cs.foldl (fun q c => applyCommand c q) p).ip = p.ip := by
  induction cs generalizing p with
  | nil => rfl
  | cons c rest ih =>
    rw [List.foldl_cons, ih, applyCommand_ip]

lemma applyCommands_on_new (addr : Addr) (cs : List PlayerCommand) (players : List Player)
    (p : Player) (h : ∀ q ∈ players, q.ip ≠ addr) (hp : p.ip = addr) :
    applyCommands (players ++ [p]) (cs.map (fun c => (addr, c))) =
      players ++ [cs.foldl (fun q c => applyCommand c q) p] := by
  induction cs generalizing p with
  | nil => simp [applyCommands]
  | cons c rest ih =>
    have hev : applyCommandEvent (players ++ [p]) (addr, c) = players ++ [applyCommand c p] := by
      simp only [applyCommandEvent]
      rw [get_player_by_ip_append_last addr players p h hp]
      exact updateFirst_append_last addr (applyCommand c) players p h hp
    simp only [applyCommands, List.map_cons, List.foldl_cons] at ih ⊢
    rw [hev]
    exact ih (applyCommand c p) (by rw [applyCommand_ip]; exact hp)

/-- C10: when several commands from one previously unseen address are in the
same tick's batch, only the first triggers the join (and is itself skipped);
each later command from that address is applied as motion to the freshly
appended player within the same batch, because the lookup is repeated per
command against the already-updated list; exactly one player keyed to that
address results. -/
theorem late_join_commands_C10 (players : List Player) (addr : Addr)
    (c : PlayerCommand) (cs : List PlayerCommand)
    (h : get_player_by_ip addr players = none) :
    applyCommands players ((addr, c) :: cs.map (fun c2 => (addr, c2))) =
      players ++ [cs.foldl (fun q c2 => applyCommand c2 q) (Player.new addr)] ∧
    countAddr addr (applyCommands players ((addr, c) :: cs.map (fun c2 => (addr, c2)))) = 1 := by
  have hall : ∀ q ∈ players, q.ip ≠ addr := (get_player_by_ip_none_iff addr players).1 h
  have h1 : applyCommands players ((addr, c) :: cs.map (fun c2 => (addr, c2))) =
      applyCommands (players ++ [Player.new addr]) (cs.map (fun c2 => (addr, c2))) := by
    simp only [applyCommands, List.foldl_cons]
    rw [applyCommandEvent_new players addr c h]
  have h2 := applyCommands_on_new addr cs players (Player.new addr) hall rfl
  rw [h1, h2]
  refine ⟨rfl, ?_⟩
  rw [countAddr_append, countAddr_eq_zero addr players hall]
  simp [countAddr, List.filter, foldl_applyCommand_ip, Player.new]

/-- Witness for C10: a jump then a move-right from the same new address in
one batch; the jump only joins, the move-right is applied to the new
player. -/
theorem late_join_commands_C10_witness :
    get_player_by_ip 0 ([] : List Player) = none ∧
    applyCommands [] [((0 : Addr), PlayerCommand.Jump), (0, PlayerCommand.Move_right)] =
      [applyCommand PlayerCommand.Move_right (Player.new 0)] ∧
    countAddr 0 (applyCommands []
      [((0 : Addr), PlayerCommand.Jump), (0, PlayerCommand.Move_right)]) = 1 := by
  have h : get_player_by_ip 0 ([] : List Player) = none := rfl
  have main := late_join_commands_C10 [] 0 PlayerCommand.Jump [PlayerCommand.Move_right] h
  exact ⟨h, by simpa using main.1, by simpa using main.2⟩

/-- Three hundred default players: enough that any wire encoding of the
snapshot must exceed the 2048-byte datagram ceiling. -/
def bigPlayers : List Player := (List.range 300).map Player.new

/-- C8 counterexample: with 300 players the snapshot occupies at least
2700 > 2048 bytes, yet the tick reports nothing and still performs all 300
sends — the code has no size check, so no size-exceeded condition is ever
surfaced. -/
theorem size_check_counterexample_C8 :
    2048 < snapshotMinBytes (tick bigPlayers []).players ∧
    (tick bigPlayers []).sends.length = 300 := by
  have hlen : (tick bigPlayers []).players.length = 300 := by
    simp [tick, physics, applyCommands, bigPlayers]
  constructor
  · unfold snapshotMinBytes
    rw [hlen]
    norm_num
  · simp [tick, physics, applyCommands, bigPlayers]

/-- C8 amended: the tick never checks the encoded snapshot's size: even when
the snapshot must exceed the 2048-byte datagram ceiling, encoding succeeds
and the broadcast is still performed in full, one send per player, with no
size-exceeded condition reported (there is no error path in the tick at
all). -/
theorem size_check_amended_C8 (players : List Player) (cmds : List (Addr × PlayerCommand))
    (h : 2048 < snapshotMinBytes (tick players cmds).players) :
    (tick players cmds).sends.length = (tick players cmds).players.length ∧
    0 < (tick players cmds).sends.length := by
  have hlen : (tick players cmds).sends.length = (tick players cmds).players.length := by
    simp [tick]
  refine ⟨hlen, ?_⟩
  rw [hlen]
  unfold snapshotMinBytes at h
  omega

/-- Witness for the amended C8 at the 300-player list. -/
theorem size_check_amended_C8_witness :
    2048 < snapshotMinBytes (tick bigPlayers []).players ∧
    0 < (tick bigPlayers []).sends.length := by
  have h : 2048 < snapshotMinBytes (tick bigPlayers []).players := by
    have hlen : (tick bigPlayers []).players.length = 300 := by
      simp [tick, physics, applyCommands, bigPlayers]
    unfold snapshotMinBytes
    rw [hlen]
    norm_num
  exact ⟨h, (size_check_amended_C8 bigPlayers [] h).2⟩

end MultiServer
